import Mathlib

/-
Verification development for the pwno-mcp debugging service.

The definitions below are a shallow embedding of the Python sources:
  * `src/pwnomcp/gdb/controller.py`   (GdbController)
  * `src/pwnomcp/tools/pwndbg.py`     (PwndbgTools)
  * `src/pwnomcp/state/session.py`    (SessionState)
  * `src/pwnomcp/router/mcp.py`       (MCP tool surface, catch_errors)
  * `src/pwnomcp/pwnpipe.py`          (PwnPipe reader)
  * `src/pwnomcp/tools/subproc.py`    (SubprocessTools)

GDB itself is modelled as a scripted oracle: every write to the debugger
consumes the next canned response list.  The operating system (for the
subprocess manager) is modelled as a process table plus a file map.
-/

namespace PwnoMcp

/-- Association-list lookup for string-keyed maps, mirroring Python `dict.get(k)`. -/
def pget (p : List (String × String)) (k : String) : Option String :=
  match p with
  | [] => none
  | (k0, v) :: rest => if k0 = k then some v else pget rest k

/-- Python `dict.get(k, default)` on a string-keyed map. -/
def pgetD (p : List (String × String)) (k d : String) : String :=
  (pget p k).getD d

/-- Python truthiness of `response.get("payload")` for a string-or-absent value:
`None` and the empty string are falsy. -/
def truthy : Option String → Bool
  | none => false
  | some s => s != ""

/-- One parsed record from the pygdbmi response stream.  The `payload` of
`result` and `notify` records is modelled as a flat string map (the fields the
controller reads: `msg`, `pid`, `reason`); `console`/`output`/`log` payloads
are free text or absent. -/
inductive MIRecord where
  | result (message : String) (payload : List (String × String))
  | console (payload : Option String)
  | output (payload : Option String)
  | log (payload : Option String)
  | notify (message : String) (payload : List (String × String))
deriving Repr, DecidableEq

/-- Predicate for `result` records. -/
def MIRecord.isResult : MIRecord → Bool
  | .result _ _ => true
  | _ => false

/-- Predicate for `notify` records. -/
def MIRecord.isNotify : MIRecord → Bool
  | .notify _ _ => true
  | _ => false

/-- The inferior pid stored by the controller: `attach` stores the Python int,
a `thread-group-started` notification stores the string from the payload. -/
inductive PidVal where
  | pint (n : Int)
  | pstr (s : String)
deriving Repr, DecidableEq

/-- Mutable fields of `GdbController`: `_initialized`, `_inferior_pid`, `_state`.
The state field is the Python string `"idle" | "running" | "stopped" | "exited"`. -/
structure Ctrl where
  initd : Bool
  inferiorPid : Option PidVal
  state : String
deriving Repr, DecidableEq

/-- Fresh controller as built by `GdbController.__init__`. -/
def Ctrl.fresh : Ctrl := ⟨false, none, "idle"⟩

/-- Embedding of `GdbController._handle_notify`. -/
def handleNotify (c : Ctrl) (message : String) (payload : List (String × String)) : Ctrl :=
  if message = "running" then { c with state := "running" }
  else if message = "stopped" then { c with state := "stopped" }
  else if message = "thread-group-exited" then { c with state := "exited" }
  else if message = "thread-group-started" then
    { c with inferiorPid := (pget payload "pid").map PidVal.pstr }
  else c

/-- Accumulator for the response loop of `execute_mi_command` (the `result`
dictionary being filled in). -/
structure MIAcc where
  success : Bool
  message : Option String
  payload : Option (List (String × String))
  output : List String
  error : Option String
deriving Repr, DecidableEq

/-- One iteration of the `for response in responses` loop of
`execute_mi_command`. -/
def miStep : MIAcc × Ctrl → MIRecord → MIAcc × Ctrl
  | (a, c), .result m p =>
      ({ a with message := some m, payload := some p,
                success := (m = "done" || m = "running"),
                error := if m = "error" then some (pgetD p "msg" "Unknown error") else a.error }, c)
  | (a, c), .console p =>
      ((if truthy p then { a with output := a.output ++ [p.getD ""] } else a), c)
  | (a, c), .notify m p => (a, handleNotify c m p)
  | (a, c), .output _ => (a, c)
  | (a, c), .log _ => (a, c)

/-- What `execute_mi_command` returns to the caller. -/
structure MIOutcome where
  command : String
  success : Bool
  message : Option String
  payload : Option (List (String × String))
  output : List String
  error : Option String
  state : String
deriving Repr, DecidableEq

/-- Embedding of `GdbController.execute_mi_command`, parametrised by the
records pygdbmi returned for this write. -/
def executeMiCore (c : Ctrl) (cmd : String) (responses : List MIRecord) : MIOutcome × Ctrl :=
  let (a, c2) := responses.foldl miStep (⟨false, none, none, [], none⟩, c)
  ({ command := cmd, success := a.success, message := a.message, payload := a.payload,
     output := a.output, error := a.error, state := c2.state }, c2)

/-- Accumulator of `execute_command`: console/output lines, error lines, logs. -/
structure ExecAcc where
  outputLines : List String
  errorLines : List String
  logs : List String
deriving Repr, DecidableEq

/-- What `execute_command` returns. -/
structure ExecOutcome where
  command : String
  output : String
  error : Option String
  logs : List String
  state : String
deriving Repr, DecidableEq

/-- Closing step of `execute_command`: build the returned dictionary. -/
def execFinish (cmd : String) (a : ExecAcc) (c : Ctrl) : ExecOutcome × Ctrl :=
  ({ command := cmd, output := String.join a.outputLines,
     error := if a.errorLines = [] then none
              else some (String.intercalate "\n" a.errorLines),
     logs := a.logs, state := c.state }, c)

/-- Response loop of `GdbController.execute_command`: records are processed in
order and the call returns at the first `result` record; with no `result` the
collected output is returned after the stream runs dry. -/
def execGo (cmd : String) (a : ExecAcc) (c : Ctrl) : List MIRecord → ExecOutcome × Ctrl
  | [] => execFinish cmd a c
  | r :: rest =>
    match r with
    | .console p =>
        execGo cmd (if truthy p then { a with outputLines := a.outputLines ++ [p.getD ""] } else a) c rest
    | .output p =>
        execGo cmd (if truthy p then { a with outputLines := a.outputLines ++ ["[INFERIOR] " ++ p.getD ""] } else a) c rest
    | .log p =>
        execGo cmd (if truthy p then { a with logs := a.logs ++ [p.getD ""] } else a) c rest
    | .result m p =>
        execFinish cmd
          (if m = "error" then { a with errorLines := a.errorLines ++ [pgetD p "msg" "Unknown error"] } else a) c
    | .notify m p => execGo cmd a (handleNotify c m p) rest

/-- The controller together with its scripted GDB child: each write consumes
the next canned response list; `writes` logs every command written to GDB. -/
structure Gdb where
  ctrl : Ctrl
  script : List (List MIRecord)
  writes : List String
deriving Repr, DecidableEq

/-- Consume the next canned response list (empty when the script is exhausted,
matching a drained/timed-out response stream). -/
def popScript (g : Gdb) : List MIRecord × Gdb :=
  match g.script with
  | [] => ([], g)
  | rs :: rest => (rs, { g with script := rest })

/-- `execute_mi_command` against the scripted child. -/
def gdbExecuteMi (g : Gdb) (cmd : String) : MIOutcome × Gdb :=
  let (rs, g2) := popScript g
  let (out, c2) := executeMiCore g2.ctrl cmd rs
  (out, { g2 with ctrl := c2, writes := g2.writes ++ [cmd] })

/-- `execute_command` against the scripted child. -/
def gdbExecuteConsole (g : Gdb) (cmd : String) : ExecOutcome × Gdb :=
  let (rs, g2) := popScript g
  let (out, c2) := execGo cmd ⟨[], [], []⟩ g2.ctrl rs
  (out, { g2 with ctrl := c2, writes := g2.writes ++ [cmd] })

/-- Single ASCII apostrophe, used to build Python error-message strings. -/
def sq : String := ⟨[Char.ofNat 39]⟩

/-- Result of `GdbController.initialize`.  The Python `messages` list mixes an
MI outcome and a console outcome; it is modelled as the two optional slots. -/
structure InitResult where
  status : String
  miAsync : Option MIOutcome
  pwndbgCheck : Option ExecOutcome
deriving Repr, DecidableEq

/-- Embedding of `GdbController.initialize`: on first use write
`set mi-async on` (MI) and `pwndbg` (console) and mark the controller
initialized; on any later call issue nothing. -/
def ctrlInit (g : Gdb) : InitResult × Gdb :=
  if g.ctrl.initd then
    ({ status := "already_initialized", miAsync := none, pwndbgCheck := none }, g)
  else
    let (r1, g1) := gdbExecuteMi g "set mi-async on"
    let (r2, g2) := gdbExecuteConsole g1 "pwndbg"
    ({ status := "initialized", miAsync := some r1, pwndbgCheck := some r2 },
     { g2 with ctrl := { g2.ctrl with initd := true } })

/-- Approximation of `os.path.dirname`: the part before the last slash.
No claim depends on its exact value. -/
def dirname (p : String) : String :=
  String.intercalate "/" ((p.splitOn "/").dropLast)

/-- Result dictionary of `set_file` / stepping-style controller methods. -/
structure SimpleResult where
  command : String
  output : String
  error : Option String
  state : String
deriving Repr, DecidableEq

/-- Shared shape of the controller stepping methods: one MI command, output
joined with newlines, state read back after the call. -/
def miSimple (g : Gdb) (cmd : String) : SimpleResult × Gdb :=
  let (r, g2) := gdbExecuteMi g cmd
  ({ command := cmd, output := String.intercalate "\n" r.output,
     error := r.error, state := g2.ctrl.state }, g2)

/-- Embedding of `GdbController.set_file`: load symbols, change directory, and
on MI success write the state to `stopped` directly. -/
def ctrlSetFile (g : Gdb) (filepath : String) : SimpleResult × Gdb :=
  let (r1, g1) := gdbExecuteMi g ("-file-exec-and-symbols " ++ filepath)
  let (_, g2) := gdbExecuteMi g1 ("-environment-cd " ++ dirname filepath)
  let g3 := if r1.success then { g2 with ctrl := { g2.ctrl with state := "stopped" } } else g2
  ({ command := "-file-exec-and-symbols " ++ filepath,
     output := if r1.output.isEmpty then "Reading symbols from " ++ filepath ++ "..."
               else String.intercalate "\n" r1.output,
     error := r1.error, state := g3.ctrl.state }, g3)

/-- Result dictionary of `GdbController.attach`. -/
structure AttachResult where
  command : String
  output : String
  error : Option String
  state : String
  pid : Option PidVal
deriving Repr, DecidableEq

/-- Embedding of `GdbController.attach`: `-target-attach`, and on MI success
store the pid and write the state to `stopped` directly. -/
def ctrlAttach (g : Gdb) (pid : Int) : AttachResult × Gdb :=
  let (r, g1) := gdbExecuteMi g ("-target-attach " ++ toString pid)
  let g2 := if r.success then
      { g1 with ctrl := { g1.ctrl with inferiorPid := some (PidVal.pint pid), state := "stopped" } }
    else g1
  ({ command := "-target-attach " ++ toString pid,
     output := String.intercalate "\n" r.output, error := r.error,
     state := g2.ctrl.state, pid := g2.ctrl.inferiorPid }, g2)

/-- `GdbController.continue_execution`. -/
def ctrlContinue (g : Gdb) : SimpleResult × Gdb := miSimple g "-exec-continue"

/-- `GdbController.next`. -/
def ctrlNext (g : Gdb) : SimpleResult × Gdb := miSimple g "-exec-next"

/-- `GdbController.step`. -/
def ctrlStep (g : Gdb) : SimpleResult × Gdb := miSimple g "-exec-step"

/-- `GdbController.nexti`. -/
def ctrlNexti (g : Gdb) : SimpleResult × Gdb := miSimple g "-exec-next-instruction"

/-- `GdbController.stepi`. -/
def ctrlStepi (g : Gdb) : SimpleResult × Gdb := miSimple g "-exec-step-instruction"

/-- Result of `GdbController.get_context`. -/
structure CtxResult where
  contextType : String
  data : Option String
  error : Option String
deriving Repr, DecidableEq

/-- Embedding of `GdbController.get_context`: rejected without any write unless
the inferior is stopped; otherwise the console command `context {kind}`. -/
def ctrlGetContext (g : Gdb) (t : String) : CtxResult × Gdb :=
  if g.ctrl.state = "stopped" then
    let (r, g1) := gdbExecuteConsole g ("context " ++ t)
    ({ contextType := t, data := some r.output, error := r.error }, g1)
  else
    ({ contextType := t, data := none,
       error := some ("Cannot get context while inferior is " ++ g.ctrl.state) }, g)

/-- `GdbController.enable_breakpoint`. -/
def ctrlEnableBreakpoint (g : Gdb) (n : Nat) : SimpleResult × Gdb :=
  let (r, g1) := gdbExecuteMi g ("-break-enable " ++ toString n)
  ({ command := "-break-enable " ++ toString n,
     output := if r.output.isEmpty then "Enabled breakpoint " ++ toString n
               else String.intercalate "\n" r.output,
     error := r.error, state := g1.ctrl.state }, g1)

/-- `GdbController.disable_breakpoint`. -/
def ctrlDisableBreakpoint (g : Gdb) (n : Nat) : SimpleResult × Gdb :=
  let (r, g1) := gdbExecuteMi g ("-break-disable " ++ toString n)
  ({ command := "-break-disable " ++ toString n,
     output := if r.output.isEmpty then "Disabled breakpoint " ++ toString n
               else String.intercalate "\n" r.output,
     error := r.error, state := g1.ctrl.state }, g1)

/-- Breakpoint record of `src/pwnomcp/state/session.py`. -/
structure SBreakpoint where
  number : Nat
  address : String
  enabled : Bool
  hitCount : Nat
  condition : Option String
deriving Repr, DecidableEq

/-- Lookup in the session breakpoint map (dict keyed by breakpoint number). -/
def bpLookup (bps : List (Nat × SBreakpoint)) (n : Nat) : Option SBreakpoint :=
  match bps with
  | [] => none
  | (k, bp) :: rest => if k = n then some bp else bpLookup rest n

/-- In-place update of the session breakpoint map (dict assignment). -/
def bpSet (bps : List (Nat × SBreakpoint)) (n : Nat) (bp : SBreakpoint) :
    List (Nat × SBreakpoint) :=
  match bps with
  | [] => [(n, bp)]
  | (k, bp0) :: rest => if k = n then (k, bp) :: rest else (k, bp0) :: bpSet rest n bp

/-- Deletion from the session breakpoint map. -/
def bpErase (bps : List (Nat × SBreakpoint)) (n : Nat) : List (Nat × SBreakpoint) :=
  match bps with
  | [] => []
  | (k, bp0) :: rest => if k = n then rest else (k, bp0) :: bpErase rest n

/-- The fields of `SessionState` the claims touch. -/
structure Session where
  binaryPath : Option String
  binaryLoaded : Bool
  pid : Option Nat
  state : String
  breakpoints : List (Nat × SBreakpoint)
deriving Repr, DecidableEq

/-- Fresh `SessionState()`. -/
def Session.fresh : Session := ⟨none, false, none, "idle", []⟩

/-- `SessionState.update_state`. -/
def sessionUpdateState (s : Session) (newState : String) : Session :=
  { s with state := newState }

/-- Embedding of `SessionState.toggle_breakpoint`: when present, the enabled
flag of the entry is negated; returns whether an entry was found. -/
def sessionToggleBp (s : Session) (n : Nat) : Session × Bool :=
  match bpLookup s.breakpoints n with
  | some bp =>
      ({ s with breakpoints := bpSet s.breakpoints n { bp with enabled := !bp.enabled } }, true)
  | none => (s, false)

/-- Result dictionary of `PwndbgTools.toggle_breakpoint`. -/
structure ToggleResult where
  success : Bool
  output : String
  error : Option String
deriving Repr, DecidableEq

/-- Embedding of `PwndbgTools.toggle_breakpoint`: issue `-break-enable` or
`-break-disable`, then on a non-truthy error call the session toggle (which
flips the local flag). -/
def pwToggleBreakpoint (g : Gdb) (s : Session) (n : Nat) (enable : Bool) :
    ToggleResult × Gdb × Session :=
  let (r, g1) := if enable then ctrlEnableBreakpoint g n else ctrlDisableBreakpoint g n
  let s1 := if truthy r.error then s else (sessionToggleBp s n).1
  ({ success := !(truthy r.error), output := r.output, error := r.error }, g1, s1)

/-- Short-alias map of `PwndbgTools.step_control` (`command_map.get(c, c)`). -/
def commandMap (c : String) : String :=
  if c = "c" then "continue"
  else if c = "n" then "next"
  else if c = "s" then "step"
  else if c = "ni" then "nexti"
  else if c = "si" then "stepi"
  else c

/-- MI execution command dispatched for each accepted long-form step command. -/
def stepMi (c : String) : Option String :=
  if c = "continue" then some "-exec-continue"
  else if c = "next" then some "-exec-next"
  else if c = "step" then some "-exec-step"
  else if c = "nexti" then some "-exec-next-instruction"
  else if c = "stepi" then some "-exec-step-instruction"
  else none

/-- Context kinds iterated by `PwndbgTools._get_full_context`. -/
def ctxTypes : List String := ["regs", "stack", "disasm", "code", "backtrace"]

/-- Loop body of `_get_full_context`: each kind is fetched via the controller
and kept only when its error is non-truthy. -/
def fullContextGo (ts : List String) (acc : List (String × String)) (g : Gdb) :
    List (String × String) × Gdb :=
  match ts with
  | [] => (acc, g)
  | t :: rest =>
    let rg := ctrlGetContext g t
    let acc1 := if truthy rg.1.error then acc else acc ++ [(t, rg.1.data.getD "")]
    fullContextGo rest acc1 rg.2

/-- `PwndbgTools._get_full_context`. -/
def fullContext (g : Gdb) : List (String × String) × Gdb :=
  fullContextGo ctxTypes [] g

/-- Message of the step-control rejection branch
(`Cannot execute {command} in state {state}` with quoted arguments). -/
def cannotMsg (cmd st : String) : String :=
  "Cannot execute " ++ sq ++ cmd ++ sq ++ " in state " ++ sq ++ st ++ sq

/-- Result dictionary of `PwndbgTools.step_control`; absent keys of the
rejection branch are `none`. -/
structure StepOutcome where
  success : Bool
  command : Option String
  output : Option String
  error : Option String
  state : String
  context : Option (List (String × String))
deriving Repr, DecidableEq

/-- Tail of the accepted branch of `step_control`: session update, optional
full-context fetch when the post-command state is `stopped`. -/
def stepFinish (s : Session) (actual : String) (rg : SimpleResult × Gdb) :
    StepOutcome × Gdb × Session :=
  let r := rg.1
  let s1 := sessionUpdateState s r.state
  let cg :=
    if r.state = "stopped" then
      let fc := fullContext rg.2
      (some fc.1, fc.2)
    else (none, rg.2)
  ({ success := !(truthy r.error), command := some actual, output := some r.output,
     error := r.error, state := r.state, context := cg.1 }, cg.2, s1)

/-- Embedding of `PwndbgTools.step_control`. -/
def pwStepControl (g : Gdb) (s : Session) (cmd : String) : StepOutcome × Gdb × Session :=
  let actual := commandMap cmd
  let st := g.ctrl.state
  if actual = "continue" ∧ st = "stopped" then
    stepFinish s actual (ctrlContinue g)
  else if (actual = "next" ∨ actual = "step" ∨ actual = "nexti" ∨ actual = "stepi") ∧ st = "stopped" then
    let rg :=
      if actual = "next" then ctrlNext g
      else if actual = "step" then ctrlStep g
      else if actual = "nexti" then ctrlNexti g
      else ctrlStepi g
    stepFinish s actual rg
  else
    ({ success := false, command := none, output := none,
       error := some (cannotMsg cmd st), state := st, context := none }, g, s)

/-- Names of the methods the class `PwndbgTools` actually defines in
`src/pwnomcp/tools/pwndbg.py`. -/
def pwndbgToolsMethods : List String :=
  ["execute", "set_file", "run", "finish", "interrupt_execution", "jump",
   "return_from_function", "until", "step_control", "get_context",
   "set_breakpoint", "list_breakpoints", "delete_breakpoint",
   "toggle_breakpoint", "_get_full_context", "get_memory", "get_session_info"]

/-- Error object produced by the `catch_errors` decorator of
`src/pwnomcp/router/mcp.py` when the wrapped tool raises. -/
structure ErrObj where
  success : Bool
  error : Option String
  errType : Option String
deriving Repr, DecidableEq

/-- Message of the `AttributeError` Python raises when `pwndbg_tools.attach`
is looked up: PwndbgTools object has no attribute named attach. -/
def noAttachMsg : String :=
  sq ++ "PwndbgTools" ++ sq ++ " object has no attribute " ++ sq ++ "attach" ++ sq

/-- Embedding of the MCP `attach` tool of `src/pwnomcp/router/mcp.py`: the tool
body is `pwndbg_tools.attach(pid)`.  `PwndbgTools` defines no method named
`attach` (see `pwndbgToolsMethods`), so the attribute lookup raises
`AttributeError`, which `catch_errors(tuple_on_error=True)` converts into an
error object paired with an empty context list; nothing is written to GDB and
neither controller nor session is touched. -/
def routerAttach (pid : Int) (g : Gdb) (s : Session) :
    (ErrObj × List (List (String × String))) × Gdb × Session :=
  if "attach" ∈ pwndbgToolsMethods then
    -- dead branch: the method list has no entry "attach"
    ((⟨false, none, none⟩, []), g, s)
  else
    ((⟨false, some noAttachMsg, some "AttributeError"⟩, []), g, s)

/-- Minimal model of a parsed JSON value as produced by `json.loads`. -/
inductive PyJson where
  | jnull
  | jbool (b : Bool)
  | jint (n : Int)
  | jstr (s : String)
  | jarr (xs : List PyJson)
  | jobj (fields : List (String × PyJson))
deriving Repr

/-- Python truthiness of an optional JSON value (used by
`bool(attach_result.get("successful"))`). -/
def pyTruthy : Option PyJson → Bool
  | none => false
  | some .jnull => false
  | some (.jbool b) => b
  | some (.jint n) => n != 0
  | some (.jstr s) => s != ""
  | some (.jarr xs) => !xs.isEmpty
  | some (.jobj fs) => !fs.isEmpty

/-- Lookup in a JSON object (Python `dict.get`). -/
def jget (fields : List (String × PyJson)) (k : String) : Option PyJson :=
  match fields with
  | [] => none
  | (k0, v) :: rest => if k0 = k then some v else jget rest k

/-- Queues and flags of a `PwnPipe` touched by the reader threads. -/
structure PipeState where
  rawQueue : List String
  events : List PyJson
  attachResult : Option PyJson
  attachEvent : Bool
  outputEvent : Bool
  activityEvent : Bool
deriving Repr

/-- Empty pipe state as set up by `PwnPipe.__init__`. -/
def PipeState.fresh : PipeState := ⟨[], [], none, false, false, false⟩

/-- Structural test that the first character list leads the second. -/
def charsLead : List Char → List Char → Bool
  | [], _ => true
  | _ :: _, [] => false
  | c :: cs, d :: ds => (c = d) && charsLead cs ds

/-- Python `str.startswith`, computed on character lists. -/
def strLead (pre s : String) : Bool := charsLead pre.data s.data

/-- Characters after the first colon (empty when there is none). -/
def charsAfterColon : List Char → List Char
  | [] => []
  | c :: rest => if c = ':' then rest else charsAfterColon rest

/-- Python `line.split(":", 1)[1]`: everything after the first colon. -/
def afterFirstColon (line : String) : String := ⟨charsAfterColon line.data⟩

/-- Python `str.strip()`: drop leading and trailing whitespace. -/
def pyStrip (s : String) : String :=
  ⟨((s.data.dropWhile Char.isWhitespace).reverse.dropWhile Char.isWhitespace).reverse⟩

/-- Fallthrough of `PwnPipe._reader` for a plain line: push to the raw queue
and emit a stream/data event. -/
def plainOutput (st : PipeState) (stream line : String) : PipeState :=
  { st with rawQueue := st.rawQueue ++ [line],
            events := st.events ++ [.jobj [("type", .jstr stream), ("data", .jstr line)]],
            outputEvent := true, activityEvent := true }

/-- The `ok` field of the `attached` event:
`bool(attach_result.get("successful") if isinstance(attach_result, dict) else False)`. -/
def attachOk (j : PyJson) : Bool :=
  match j with
  | .jobj fields => pyTruthy (jget fields "successful")
  | _ => false

/-- Embedding of one iteration of `PwnPipe._reader`, parametrised by the
behaviour `jloads` of `json.loads` (`none` models a raised `ValueError`).
An attach-marker line whose payload fails to parse is dropped (`except: pass`
followed by `continue`); an IPC-marker line whose payload fails to parse, or
parses to a non-dict, falls through to the plain-output path. -/
def processLine (jloads : String → Option PyJson) (st : PipeState)
    (stream line : String) : PipeState :=
  if strLead "PWNCLI_ATTACH_RESULT:" line then
    let payload := pyStrip (afterFirstColon line)
    match jloads payload with
    | some j =>
        { st with attachResult := some j, attachEvent := true, activityEvent := true,
                  events := st.events ++
                    [.jobj [("type", .jstr "attached"), ("ok", .jbool (attachOk j)),
                            ("result", j)]] }
    | none => st
  else if strLead "PWNO_IPC:" line then
    let payload := pyStrip (afterFirstColon line)
    match jloads payload with
    | some (.jobj fields) =>
        { st with events := st.events ++ [.jobj fields],
                  outputEvent := true, activityEvent := true }
    | _ => plainOutput st stream line
  else plainOutput st stream line

/-- Generic association-list lookup keyed by pid. -/
def alook {α : Type} (m : List (Nat × α)) (n : Nat) : Option α :=
  match m with
  | [] => none
  | (k, v) :: rest => if k = n then some v else alook rest n

/-- Generic association-list update keyed by pid (dict assignment). -/
def aset {α : Type} (m : List (Nat × α)) (n : Nat) (v : α) : List (Nat × α) :=
  match m with
  | [] => [(n, v)]
  | (k, v0) :: rest => if k = n then (k, v) :: rest else (k, v0) :: aset rest n v

/-- Generic association-list deletion keyed by pid. -/
def aerase {α : Type} (m : List (Nat × α)) (n : Nat) : List (Nat × α) :=
  match m with
  | [] => []
  | (k, v0) :: rest => if k = n then rest else (k, v0) :: aerase rest n

/-- One OS process as observed through `Popen.poll` and psutil: whether it is
still running, its exit code once dead, and the psutil-reported attributes. -/
structure OsProc where
  running : Bool
  returncode : Int
  name : String
  cmdline : String
  isUp : Bool
  cpu : Nat
  memRss : Nat
deriving Repr, DecidableEq

/-- The world the subprocess manager talks to: the OS process table and the
contents of the log files the children write. -/
structure OS where
  procs : List (Nat × OsProc)
  files : List (String × String)
deriving Repr, DecidableEq

/-- Process-table lookup (`psutil.pid_exists` is `isSome` of this). -/
def osProc (os : OS) (pid : Nat) : Option OsProc := alook os.procs pid

/-- `Popen.poll()` for a child spawned by the manager: `none` while running,
the exit code once dead.  The manager only polls handles of pids it spawned,
which are always in the table; the default is unreachable. -/
def osPoll (os : OS) (pid : Nat) : Option Int :=
  match osProc os pid with
  | some p => if p.running then none else some p.returncode
  | none => some 0

/-- Read a log file (an absent path reads as empty). -/
def fileReadD (os : OS) (path : String) : String := (pget os.files path).getD ""

/-- One entry of `SubprocessTools.background_processes`. -/
structure TrackedEntry where
  stdoutPath : String
  stderrPath : String
  command : String
  cwd : String
  filesOpen : Bool
deriving Repr, DecidableEq

/-- The tracking map of `SubprocessTools`. -/
def Mgr : Type := List (Nat × TrackedEntry)

/-- Result dictionary of `spawn_process`; keys absent from a branch are
`none`. -/
structure SpawnResult where
  success : Bool
  command : String
  pid : Option Nat
  cwd : Option String
  status : Option String
  error : Option String
  returncode : Option Int
  stdout : Option String
  stderr : Option String
  stdoutPath : String
  stderrPath : String
deriving Repr, DecidableEq

/-- Embedding of `SubprocessTools.spawn_process`.  `pid` and the two temp-file
paths are the values the OS handed out; `os` is the world as observed at the
poll after the ~100 ms grace sleep.  The entry is registered before the poll
and is kept (files open) even when the child has already exited, in which case
the terminal outcome is returned in the same call. -/
def spawnProcess (mgr : Mgr) (os : OS) (cmd cwd : String) (pid : Nat)
    (stdoutPath stderrPath : String) : SpawnResult × Mgr :=
  let entry : TrackedEntry := ⟨stdoutPath, stderrPath, cmd, cwd, true⟩
  let mgr1 := aset mgr pid entry
  match osPoll os pid with
  | some rc =>
      ({ success := false, command := cmd, pid := none, cwd := none, status := none,
         error := some "Process terminated immediately", returncode := some rc,
         stdout := some (fileReadD os stdoutPath), stderr := some (fileReadD os stderrPath),
         stdoutPath := stdoutPath, stderrPath := stderrPath }, mgr1)
  | none =>
      ({ success := true, command := cmd, pid := some pid, cwd := some cwd,
         status := some "running", error := none, returncode := none,
         stdout := none, stderr := none,
         stdoutPath := stdoutPath, stderrPath := stderrPath }, mgr1)

/-- Result dictionary of `get_process`; keys absent from a branch are `none`. -/
structure GetResult where
  success : Bool
  pid : Nat
  status : Option String
  returncode : Option Int
  stdout : Option String
  stderr : Option String
  stdoutPath : Option String
  stderrPath : Option String
  name : Option String
  cmdline : Option String
  cpu : Option Nat
  memRss : Option Nat
  error : Option String
deriving Repr, DecidableEq

/-- Embedding of `SubprocessTools.get_process`: a tracked pid whose child has
exited yields the exit code and the final file contents and drops the entry;
an untracked pid is answered from the OS, with `Process not found` only when
the pid does not exist. -/
def getProcess (mgr : Mgr) (os : OS) (pid : Nat) : GetResult × Mgr :=
  match alook mgr pid with
  | some entry =>
    match osPoll os pid with
    | none =>
        ({ success := true, pid := pid, status := some "running", returncode := none,
           stdout := none, stderr := none,
           stdoutPath := some entry.stdoutPath, stderrPath := some entry.stderrPath,
           name := none, cmdline := none,
           cpu := (osProc os pid).map OsProc.cpu,
           memRss := (osProc os pid).map OsProc.memRss, error := none }, mgr)
    | some rc =>
        ({ success := true, pid := pid, status := some "terminated", returncode := some rc,
           stdout := some (fileReadD os entry.stdoutPath),
           stderr := some (fileReadD os entry.stderrPath),
           stdoutPath := some entry.stdoutPath, stderrPath := some entry.stderrPath,
           name := none, cmdline := none, cpu := none, memRss := none, error := none },
         aerase mgr pid)
  | none =>
    match osProc os pid with
    | some p =>
        ({ success := true, pid := pid,
           status := some (if p.isUp then "running" else "unknown"),
           returncode := none, stdout := none, stderr := none, stdoutPath := none,
           stderrPath := none, name := some p.name, cmdline := some p.cmdline,
           cpu := none, memRss := none, error := none }, mgr)
    | none =>
        ({ success := false, pid := pid, status := none, returncode := none,
           stdout := none, stderr := none, stdoutPath := none, stderrPath := none,
           name := none, cmdline := none, cpu := none, memRss := none,
           error := some "Process not found" }, mgr)

/-- Result dictionary of `kill_process`. -/
structure KillResult where
  success : Bool
  pid : Nat
  signal : Option Int
  status : Option String
  error : Option String
deriving Repr, DecidableEq

/-- Effect of delivering a fatal signal: a running process dies with
returncode `-sig`; a dead process is unchanged (`terminate` on a reaped child
is a no-op and `wait` re-returns the stored code). -/
def osKill (os : OS) (pid : Nat) (sig : Int) : OS :=
  { os with procs := os.procs.map (fun kv =>
      if kv.1 = pid then
        (kv.1, if kv.2.running then
                 { kv.2 with running := false, isUp := false, returncode := -sig }
               else kv.2)
      else kv) }

/-- Embedding of `SubprocessTools.kill_process`: a tracked pid is terminated
(`terminate` for signal 15, `kill` otherwise) and waited for, and its map
entry is deliberately kept; an untracked pid goes through `os.kill`, raising
`ProcessLookupError` (`Process not found`) when it does not exist. -/
def killProcess (mgr : Mgr) (os : OS) (pid : Nat) (sig : Int) : KillResult × OS :=
  if (alook mgr pid).isSome then
    (⟨true, pid, some sig, some "killed", none⟩,
     osKill os pid (if sig = 15 then 15 else 9))
  else
    match osProc os pid with
    | some _ => (⟨true, pid, some sig, some "killed", none⟩, osKill os pid sig)
    | none => (⟨false, pid, none, none, some "Process not found"⟩, os)

/-- One row of the `list_processes` answer. -/
structure ListedProc where
  pid : Nat
  status : String
  name : Option String
  cmdline : Option String
deriving Repr, DecidableEq

/-- Embedding of the `list_processes` loop: running children are listed and
kept; entries whose child has exited are closed and garbage-collected. -/
def listGo (items : List (Nat × TrackedEntry)) (os : OS) :
    List ListedProc × List (Nat × TrackedEntry) :=
  match items with
  | [] => ([], [])
  | (pid, e) :: rest =>
    let (ps, kept) := listGo rest os
    match osPoll os pid with
    | none =>
        (match osProc os pid with
         | some p => (⟨pid, "running", some p.name, some p.cmdline⟩ :: ps, (pid, e) :: kept)
         | none => (⟨pid, "running", none, none⟩ :: ps, (pid, e) :: kept))
    | some _ => (ps, kept)

/-- `SubprocessTools.list_processes`: the listed rows and the surviving map. -/
def listProcesses (mgr : Mgr) (os : OS) : List ListedProc × Mgr := listGo mgr os

/-- State effect of a response stream as prescribed by `_handle_notify`:
only `notify` records act on the controller. -/
def notifyFold (c : Ctrl) (rs : List MIRecord) : Ctrl :=
  rs.foldl (fun c0 r =>
    match r with
    | .notify m p => handleNotify c0 m p
    | _ => c0) c

/-- Records `execute_command` processes: everything strictly before the first
`result` record. -/
def takeToResult : List MIRecord → List MIRecord
  | [] => []
  | r :: rest => if r.isResult then [] else r :: takeToResult rest

/-- MI execution commands (the `-exec-` family of the stepping primitives). -/
def isExecCmd (c : String) : Bool := charsLead "-exec-".data c.data

/-- The spawn–kill–get scenario of the subprocess manager, run in order:
`spawn(P)` observing world `osA`, then `kill(P, sig)` against world `osB`,
then `get(P)` against the post-kill world.  Returns the three outcomes, the
final tracking map, and the post-kill world. -/
def spawnKillGet (mgr0 : Mgr) (osA osB : OS) (cmd cwd : String) (pid : Nat)
    (sop sep : String) (sig : Int) :
    SpawnResult × KillResult × GetResult × Mgr × OS :=
  let sp := spawnProcess mgr0 osA cmd cwd pid sop sep
  let kl := killProcess sp.2 osB pid sig
  let gt := getProcess sp.2 kl.2 pid
  (sp.1, kl.1, gt.1, gt.2, kl.2)

-- ===================== theorems =====================

/-- Consuming a canned response list does not change the write log. -/
theorem popScript_writes (g : Gdb) : (popScript g).2.writes = g.writes := by
  rcases hs : g.script with _ | ⟨rs, rest⟩ <;> simp [popScript, hs]

/-- Consuming a canned response list does not change the controller. -/
theorem popScript_ctrl (g : Gdb) : (popScript g).2.ctrl = g.ctrl := by
  rcases hs : g.script with _ | ⟨rs, rest⟩ <;> simp [popScript, hs]

/-- `execute_mi_command` writes exactly its command. -/
theorem gdbExecuteMi_writes (g : Gdb) (cmd : String) :
    (gdbExecuteMi g cmd).2.writes = g.writes ++ [cmd] := by
  show (popScript g).2.writes ++ [cmd] = g.writes ++ [cmd]
  rw [popScript_writes]

/-- `execute_command` writes exactly its command. -/
theorem gdbExecuteConsole_writes (g : Gdb) (cmd : String) :
    (gdbExecuteConsole g cmd).2.writes = g.writes ++ [cmd] := by
  show (popScript g).2.writes ++ [cmd] = g.writes ++ [cmd]
  rw [popScript_writes]

/-- Non-`result` records leave the success/error/message fields of the
`execute_mi_command` accumulator untouched. -/
theorem miStep_nonresult (a : MIAcc) (c : Ctrl) (r : MIRecord)
    (h : r.isResult = false) :
    (miStep (a, c) r).1.success = a.success ∧
    (miStep (a, c) r).1.error = a.error ∧
    (miStep (a, c) r).1.message = a.message := by
  cases r with
  | result m p => simp [MIRecord.isResult] at h
  | console p =>
    simp only [miStep]
    split <;> exact ⟨rfl, rfl, rfl⟩
  | output p => exact ⟨rfl, rfl, rfl⟩
  | log p => exact ⟨rfl, rfl, rfl⟩
  | notify m p => exact ⟨rfl, rfl, rfl⟩

/-- Folding a run of non-`result` records preserves success/error/message. -/
theorem miFold_nonresult (rs : List MIRecord)
    (h : ∀ r ∈ rs, r.isResult = false) :
    ∀ (a : MIAcc) (c : Ctrl),
      (rs.foldl miStep (a, c)).1.success = a.success ∧
      (rs.foldl miStep (a, c)).1.error = a.error ∧
      (rs.foldl miStep (a, c)).1.message = a.message := by
  induction rs with
  | nil => intro a c; exact ⟨rfl, rfl, rfl⟩
  | cons r rest ih =>
    intro a c
    have hr := miStep_nonresult a c r (h r (List.mem_cons_self _ _))
    have hrest := ih (fun x hx => h x (List.mem_cons_of_mem _ hx))
    obtain ⟨p1, p2⟩ : ∃ a' c', miStep (a, c) r = (a', c') := ⟨_, _, rfl⟩
    rcases hrest (miStep (a, c) r).1 (miStep (a, c) r).2 with ⟨q1, q2, q3⟩
    refine ⟨?_, ?_, ?_⟩ <;> simp only [List.foldl_cons]
    · rw [show miStep (a, c) r = ((miStep (a, c) r).1, (miStep (a, c) r).2) from rfl] at *
      exact q1.trans hr.1
    · rw [show miStep (a, c) r = ((miStep (a, c) r).1, (miStep (a, c) r).2) from rfl] at *
      exact q2.trans hr.2.1
    · rw [show miStep (a, c) r = ((miStep (a, c) r).1, (miStep (a, c) r).2) from rfl] at *
      exact q3.trans hr.2.2

/-- C1: for every MI command run through `execute_mi_command` whose response
stream contains exactly one `result` record (the terminating result of the MI
protocol, here `result m p` between arbitrary non-result records), the
outcome's success flag is true iff the message is `done` or `running`, the
error field is present iff the message is `error`, and in that case it carries
the `msg` field of the result payload (defaulting to `Unknown error`). -/
theorem mi_outcome_success_error (c : Ctrl) (cmd : String)
    (pre post : List MIRecord) (m : String) (p : List (String × String))
    (hpre : ∀ r ∈ pre, r.isResult = false)
    (hpost : ∀ r ∈ post, r.isResult = false) :
    ((executeMiCore c cmd (pre ++ MIRecord.result m p :: post)).1.success = true
        ↔ (m = "done" ∨ m = "running")) ∧
    ((executeMiCore c cmd (pre ++ MIRecord.result m p :: post)).1.error ≠ none
        ↔ m = "error") ∧
    (m = "error" →
      (executeMiCore c cmd (pre ++ MIRecord.result m p :: post)).1.error
        = some (pgetD p "msg" "Unknown error")) := by
  obtain ⟨a1, c1, hac⟩ :
      ∃ a1 c1, pre.foldl miStep (⟨false, none, none, [], none⟩, c) = (a1, c1) :=
    ⟨_, _, rfl⟩
  have h1 := miFold_nonresult pre hpre ⟨false, none, none, [], none⟩ c
  rw [hac] at h1
  have hsucc :
      (executeMiCore c cmd (pre ++ MIRecord.result m p :: post)).1.success
        = (post.foldl miStep (miStep (a1, c1) (MIRecord.result m p))).1.success := by
    show ((pre ++ MIRecord.result m p :: post).foldl miStep
            (⟨false, none, none, [], none⟩, c)).1.success = _
    rw [List.foldl_append, hac, List.foldl_cons]
  have herr :
      (executeMiCore c cmd (pre ++ MIRecord.result m p :: post)).1.error
        = (post.foldl miStep (miStep (a1, c1) (MIRecord.result m p))).1.error := by
    show ((pre ++ MIRecord.result m p :: post).foldl miStep
            (⟨false, none, none, [], none⟩, c)).1.error = _
    rw [List.foldl_append, hac, List.foldl_cons]
  have h2 := miFold_nonresult post hpost
      { a1 with message := some m, payload := some p,
                success := (m = "done" || m = "running"),
                error := if m = "error" then some (pgetD p "msg" "Unknown error")
                         else a1.error } c1
  have hstep : miStep (a1, c1) (MIRecord.result m p)
      = ({ a1 with message := some m, payload := some p,
                   success := (m = "done" || m = "running"),
                   error := if m = "error" then some (pgetD p "msg" "Unknown error")
                            else a1.error }, c1) := rfl
  rw [hstep] at hsucc herr
  rw [h2.1] at hsucc
  rw [h2.2.1] at herr
  have hae : a1.error = none := h1.2.1
  refine ⟨?_, ?_, ?_⟩
  · rw [hsucc]
    simp
  · rw [herr, hae]
    by_cases hm : m = "error" <;> simp [hm]
  · intro hm
    rw [herr, hae, if_pos hm]

/-- Witness for C1 at a concrete stream: console chatter, a `done` result, a
trailing notify. -/
theorem mi_outcome_success_error_witness :
    ((executeMiCore Ctrl.fresh "-break-insert main"
        ([MIRecord.console (some "hello")] ++
          MIRecord.result "done" [] :: [MIRecord.notify "running" []])).1.success = true
        ↔ ("done" = "done" ∨ "done" = "running")) ∧
    ((executeMiCore Ctrl.fresh "-break-insert main"
        ([MIRecord.console (some "hello")] ++
          MIRecord.result "done" [] :: [MIRecord.notify "running" []])).1.error ≠ none
        ↔ "done" = "error") ∧
    ("done" = "error" →
      (executeMiCore Ctrl.fresh "-break-insert main"
        ([MIRecord.console (some "hello")] ++
          MIRecord.result "done" [] :: [MIRecord.notify "running" []])).1.error
        = some (pgetD [] "msg" "Unknown error")) :=
  mi_outcome_success_error Ctrl.fresh "-break-insert main"
    [MIRecord.console (some "hello")] [MIRecord.notify "running" []] "done" []
    (by decide) (by decide)

/-- The controller part of any `miStep` is the notify action. -/
theorem miStep_ctrl (a : MIAcc) (c : Ctrl) (r : MIRecord) :
    (miStep (a, c) r).2 =
      (match r with
       | .notify m p => handleNotify c m p
       | _ => c) := by
  cases r with
  | console p => rfl
  | result m p => rfl
  | output p => rfl
  | log p => rfl
  | notify m p => rfl

/-- The controller returned by the `execute_mi_command` fold is the notify
fold of the whole stream. -/
theorem miFold_ctrl (rs : List MIRecord) :
    ∀ (a : MIAcc) (c : Ctrl), (rs.foldl miStep (a, c)).2 = notifyFold c rs := by
  induction rs with
  | nil => intro a c; rfl
  | cons r rest ih =>
    intro a c
    cases r with
    | console p => exact ih _ c
    | output p => exact ih _ c
    | log p => exact ih _ c
    | result m p => exact ih _ c
    | notify m p => exact ih a (handleNotify c m p)

/-- The controller returned by the `execute_command` loop is the notify fold
of the records before the first `result`. -/
theorem execGo_ctrl (rs : List MIRecord) :
    ∀ (cmd : String) (a : ExecAcc) (c : Ctrl),
      (execGo cmd a c rs).2 = notifyFold c (takeToResult rs) := by
  induction rs with
  | nil => intro cmd a c; rfl
  | cons r rest ih =>
    intro cmd a c
    cases r with
    | console p => exact ih cmd _ c
    | output p => exact ih cmd _ c
    | log p => exact ih cmd _ c
    | result m p => rfl
    | notify m p => exact ih cmd a (handleNotify c m p)

/-- C2 counterexample: attaching with an MI response stream that contains no
notify record still moves the controller state from `idle` to `stopped` —
`GdbController.attach` writes `_state` directly on success, so notify handling
is not the only writer of the state field. -/
theorem attach_sets_state_without_notify :
    (∀ r ∈ [MIRecord.result "done" []], r.isNotify = false) ∧
    (Gdb.mk ⟨true, none, "idle"⟩ [[MIRecord.result "done" []]] []).ctrl.state = "idle" ∧
    (ctrlAttach (Gdb.mk ⟨true, none, "idle"⟩ [[MIRecord.result "done" []]] []) 42).2.ctrl.state
      = "stopped" := by
  exact ⟨by decide, rfl, rfl⟩

/-- C2 amended: controller state transitions are exactly the `_handle_notify`
fold of the async notify records of each response stream — for both
`execute_mi_command` and `execute_command` the resulting controller is the
notify fold, so console/output/log records never influence the state — except
that `set_file` and `attach` additionally write the state to `stopped`
directly when their MI command succeeds (`attach` also storing the pid). -/
theorem state_transitions_via_notify_and_direct_writes :
    (∀ (c : Ctrl) (cmd : String) (rs : List MIRecord),
        (executeMiCore c cmd rs).2 = notifyFold c rs) ∧
    (∀ (cmd : String) (a : ExecAcc) (c : Ctrl) (rs : List MIRecord),
        (execGo cmd a c rs).2 = notifyFold c (takeToResult rs)) ∧
    (∀ (g : Gdb) (pid : Int),
        ((gdbExecuteMi g ("-target-attach " ++ toString pid)).1.success = true →
            (ctrlAttach g pid).2.ctrl.state = "stopped" ∧
            (ctrlAttach g pid).2.ctrl.inferiorPid = some (PidVal.pint pid)) ∧
        ((gdbExecuteMi g ("-target-attach " ++ toString pid)).1.success = false →
            (ctrlAttach g pid).2.ctrl
              = (gdbExecuteMi g ("-target-attach " ++ toString pid)).2.ctrl)) ∧
    (∀ (g : Gdb) (fp : String),
        (gdbExecuteMi g ("-file-exec-and-symbols " ++ fp)).1.success = true →
          (ctrlSetFile g fp).2.ctrl.state = "stopped") := by
  refine ⟨?_, ?_, ?_, ?_⟩
  · intro c cmd rs
    exact miFold_ctrl rs ⟨false, none, none, [], none⟩ c
  · intro cmd a c rs
    exact execGo_ctrl rs cmd a c
  · intro g pid
    constructor
    · intro h
      constructor <;> simp [ctrlAttach, h]
    · intro h
      simp [ctrlAttach, h]
  · intro g fp h
    simp [ctrlSetFile, h]

/-- Witness for the amended C2 at concrete inputs: a notify-only stream for
the primitives and a successful attach. -/
theorem state_transitions_via_notify_and_direct_writes_witness :
    (executeMiCore Ctrl.fresh "-exec-run" [MIRecord.notify "running" []]).2
      = notifyFold Ctrl.fresh [MIRecord.notify "running" []] ∧
    (ctrlAttach (Gdb.mk Ctrl.fresh [[MIRecord.result "done" []]] []) 7).2.ctrl.state
      = "stopped" := by
  constructor
  · exact state_transitions_via_notify_and_direct_writes.1 Ctrl.fresh "-exec-run"
      [MIRecord.notify "running" []]
  · exact ((state_transitions_via_notify_and_direct_writes.2.2.1
      (Gdb.mk Ctrl.fresh [[MIRecord.result "done" []]] []) 7).1 (by decide)).1

/-- C3 counterexample: the fixed first-use setup sequence issued by
`GdbController.initialize` is exactly `set mi-async on` followed by the
`pwndbg` presence check — it contains no command disabling pagination or
confirmation and no follow-fork / detach-on-fork configuration, contrary to
the claim. -/
theorem init_sequence_lacks_setup_commands :
    (ctrlInit (Gdb.mk Ctrl.fresh [[MIRecord.result "done" []], []] [])).2.writes
      = ["set mi-async on", "pwndbg"] ∧
    "set pagination off" ∉
      (ctrlInit (Gdb.mk Ctrl.fresh [[MIRecord.result "done" []], []] [])).2.writes ∧
    "set confirm off" ∉
      (ctrlInit (Gdb.mk Ctrl.fresh [[MIRecord.result "done" []], []] [])).2.writes ∧
    "set follow-fork-mode parent" ∉
      (ctrlInit (Gdb.mk Ctrl.fresh [[MIRecord.result "done" []], []] [])).2.writes ∧
    "set detach-on-fork off" ∉
      (ctrlInit (Gdb.mk Ctrl.fresh [[MIRecord.result "done" []], []] [])).2.writes := by
  refine ⟨by decide, by decide, by decide, by decide, by decide⟩

/-- C3 amended: on first use the controller issues exactly the fixed sequence
`set mi-async on` (enabling asynchronous MI mode) and the `pwndbg` check,
before any user command, and marks itself initialized; a second initialize
call issues nothing and reports `already_initialized`. -/
theorem init_first_use_and_reinit :
    (∀ g : Gdb, g.ctrl.initd = false → g.writes = [] →
        (ctrlInit g).2.writes = ["set mi-async on", "pwndbg"] ∧
        (ctrlInit g).1.status = "initialized" ∧
        (ctrlInit g).2.ctrl.initd = true) ∧
    (∀ g : Gdb, g.ctrl.initd = true →
        (ctrlInit g).1.status = "already_initialized" ∧ (ctrlInit g).2 = g) := by
  constructor
  · intro g h hw
    have hwrites : (ctrlInit g).2.writes
        = (gdbExecuteConsole (gdbExecuteMi g "set mi-async on").2 "pwndbg").2.writes := by
      simp [ctrlInit, h]
    have hstatus : (ctrlInit g).1.status = "initialized" := by
      simp [ctrlInit, h]
    have hinitd : (ctrlInit g).2.ctrl.initd = true := by
      simp [ctrlInit, h]
    refine ⟨?_, hstatus, hinitd⟩
    rw [hwrites, gdbExecuteConsole_writes, gdbExecuteMi_writes, hw]
    rfl
  · intro g h
    constructor <;> simp [ctrlInit, h]

/-- Witness for the amended C3 at a concrete controller. -/
theorem init_first_use_and_reinit_witness :
    (ctrlInit (Gdb.mk Ctrl.fresh [[MIRecord.result "done" []]] [])).2.writes
      = ["set mi-async on", "pwndbg"] ∧
    (ctrlInit (Gdb.mk ⟨true, none, "idle"⟩ [] [])).1.status = "already_initialized" := by
  constructor
  · exact (init_first_use_and_reinit.1 (Gdb.mk Ctrl.fresh [[MIRecord.result "done" []]] [])
      (by decide) rfl).1
  · exact (init_first_use_and_reinit.2 (Gdb.mk ⟨true, none, "idle"⟩ [] []) (by decide)).1

/-- C4: the MCP `attach` tool cannot perform an attach at all — `PwndbgTools`
defines no `attach` method, so every call returns the `catch_errors`
`AttributeError` tuple with an empty context list, writes nothing to GDB, and
leaves both the controller and the session untouched (in particular no pid is
stored and the state is not set to `stopped`). -/
theorem attach_tool_attribute_error :
    ("attach" ∉ pwndbgToolsMethods) ∧
    (∀ (pid : Int) (g : Gdb) (s : Session),
        (routerAttach pid g s).1
          = (⟨false, some noAttachMsg, some "AttributeError"⟩, []) ∧
        (routerAttach pid g s).2.1 = g ∧
        (routerAttach pid g s).2.2 = s) := by
  have hm : ¬ ("attach" ∈ pwndbgToolsMethods) := by decide
  refine ⟨hm, ?_⟩
  intro pid g s
  refine ⟨?_, ?_, ?_⟩ <;> simp [routerAttach, hm]

/-- A `context` console command is never an MI execution command. -/
theorem isExecCmd_context (t : String) : isExecCmd ("context " ++ t) = false := rfl

/-- `get_context` preserves the `-exec-` part of the write log. -/
theorem ctrlGetContext_writes_filter (g : Gdb) (t : String) :
    ((ctrlGetContext g t).2).writes.filter isExecCmd = g.writes.filter isExecCmd := by
  unfold ctrlGetContext
  split
  · show ((gdbExecuteConsole g ("context " ++ t)).2).writes.filter isExecCmd
        = g.writes.filter isExecCmd
    rw [gdbExecuteConsole_writes, List.filter_append]
    simp [List.filter, isExecCmd_context t]
  · rfl

/-- The full-context loop preserves the `-exec-` part of the write log. -/
theorem fullContextGo_writes_filter (ts : List String) :
    ∀ (acc : List (String × String)) (g : Gdb),
      ((fullContextGo ts acc g).2).writes.filter isExecCmd
        = g.writes.filter isExecCmd := by
  induction ts with
  | nil => intro acc g; rfl
  | cons t rest ih =>
    intro acc g
    exact (ih _ _).trans (ctrlGetContext_writes_filter g t)

/-- `_get_full_context` preserves the `-exec-` part of the write log. -/
theorem fullContext_writes_filter (g : Gdb) :
    ((fullContext g).2).writes.filter isExecCmd = g.writes.filter isExecCmd :=
  fullContextGo_writes_filter ctxTypes [] g

/-- The post-step tail of `step_control` (session update and optional context
fetch) adds no MI execution command to the write log. -/
theorem stepFinish_writes_filter (s : Session) (actual : String)
    (rg : SimpleResult × Gdb) :
    ((stepFinish s actual rg).2.1).writes.filter isExecCmd
      = (rg.2).writes.filter isExecCmd := by
  have hgoal : (stepFinish s actual rg).2.1
      = (if rg.1.state = "stopped" then
          (some (fullContext rg.2).1, (fullContext rg.2).2)
         else ((none : Option (List (String × String))), rg.2)).2 := rfl
  rw [hgoal]
  by_cases hst : rg.1.state = "stopped"
  · rw [if_pos hst]
    exact fullContext_writes_filter rg.2
  · rw [if_neg hst]

/-- A stepping controller method writes exactly its MI command. -/
theorem miSimple_writes (g : Gdb) (cmd : String) :
    (miSimple g cmd).2.writes = g.writes ++ [cmd] :=
  gdbExecuteMi_writes g cmd

/-- Every command dispatched by `step_control` is an MI execution command. -/
theorem stepMi_isExec (a mi : String) (h : stepMi a = some mi) :
    isExecCmd mi = true := by
  unfold stepMi at h
  split_ifs at h
  all_goals (injection h with h2; subst h2; decide)

/-- C5: `step_control` issues exactly the corresponding MI execution command
for every accepted alias (short or long) while the inferior is stopped; every
other input is rejected with the structured error and no write to GDB, and
every call outside the `stopped` state is likewise rejected without writing. -/
theorem step_control_spec :
    (∀ (cmd : String) (g : Gdb) (s : Session) (mi : String),
        stepMi (commandMap cmd) = some mi → g.ctrl.state = "stopped" →
        ((pwStepControl g s cmd).2.1).writes.filter isExecCmd
          = g.writes.filter isExecCmd ++ [mi]) ∧
    (∀ (cmd : String) (g : Gdb) (s : Session),
        stepMi (commandMap cmd) = none →
        pwStepControl g s cmd
          = ({ success := false, command := none, output := none,
               error := some (cannotMsg cmd g.ctrl.state), state := g.ctrl.state,
               context := none }, g, s)) ∧
    (∀ (cmd : String) (g : Gdb) (s : Session),
        g.ctrl.state ≠ "stopped" →
        pwStepControl g s cmd
          = ({ success := false, command := none, output := none,
               error := some (cannotMsg cmd g.ctrl.state), state := g.ctrl.state,
               context := none }, g, s)) := by
  refine ⟨?_, ?_, ?_⟩
  · intro cmd g s mi h hst
    have hfin : ∀ w : String, isExecCmd w = true →
        ∀ rg : SimpleResult × Gdb, rg.2.writes = g.writes ++ [w] →
        ∀ actual : String,
        ((stepFinish s actual rg).2.1).writes.filter isExecCmd
          = g.writes.filter isExecCmd ++ [w] := by
      intro w hw rg hrg actual
      rw [stepFinish_writes_filter, hrg, List.filter_append]
      simp [List.filter, hw]
    unfold stepMi at h
    split_ifs at h with h1 h2 h3 h4 h5
    · injection h with h6
      subst h6
      have e : pwStepControl g s cmd = stepFinish s (commandMap cmd) (ctrlContinue g) := by
        simp [pwStepControl, h1, hst]
      rw [e]
      exact hfin "-exec-continue" (by decide) (ctrlContinue g)
        (miSimple_writes g "-exec-continue") (commandMap cmd)
    · injection h with h6
      subst h6
      have e : pwStepControl g s cmd = stepFinish s (commandMap cmd) (ctrlNext g) := by
        simp [pwStepControl, h1, h2, hst]
      rw [e]
      exact hfin "-exec-next" (by decide) (ctrlNext g)
        (miSimple_writes g "-exec-next") (commandMap cmd)
    · injection h with h6
      subst h6
      have e : pwStepControl g s cmd = stepFinish s (commandMap cmd) (ctrlStep g) := by
        simp [pwStepControl, h1, h2, h3, hst]
      rw [e]
      exact hfin "-exec-step" (by decide) (ctrlStep g)
        (miSimple_writes g "-exec-step") (commandMap cmd)
    · injection h with h6
      subst h6
      have e : pwStepControl g s cmd = stepFinish s (commandMap cmd) (ctrlNexti g) := by
        simp [pwStepControl, h1, h2, h3, h4, hst]
      rw [e]
      exact hfin "-exec-next-instruction" (by decide) (ctrlNexti g)
        (miSimple_writes g "-exec-next-instruction") (commandMap cmd)
    · injection h with h6
      subst h6
      have e : pwStepControl g s cmd = stepFinish s (commandMap cmd) (ctrlStepi g) := by
        simp [pwStepControl, h1, h2, h3, h4, h5, hst]
      rw [e]
      exact hfin "-exec-step-instruction" (by decide) (ctrlStepi g)
        (miSimple_writes g "-exec-step-instruction") (commandMap cmd)
  · intro cmd g s h
    unfold stepMi at h
    split_ifs at h with h1 h2 h3 h4 h5
    simp [pwStepControl, h1, h2, h3, h4, h5]
  · intro cmd g s hst
    simp [pwStepControl, hst]

/-- Witness for C5: the alias `c` while stopped issues `-exec-continue`; the
string `bogus` and a call in the `running` state are rejected unchanged. -/
theorem step_control_spec_witness :
    ((pwStepControl (Gdb.mk ⟨true, none, "stopped"⟩ [[MIRecord.result "running" []]] [])
        Session.fresh "c").2.1).writes.filter isExecCmd
      = (Gdb.mk ⟨true, none, "stopped"⟩
          [[MIRecord.result "running" []]] []).writes.filter isExecCmd
        ++ ["-exec-continue"] ∧
    pwStepControl (Gdb.mk ⟨true, none, "stopped"⟩ [] []) Session.fresh "bogus"
      = ({ success := false, command := none, output := none,
           error := some (cannotMsg "bogus"
             (Gdb.mk ⟨true, none, "stopped"⟩ [] []).ctrl.state),
           state := (Gdb.mk ⟨true, none, "stopped"⟩ [] []).ctrl.state,
           context := none }, Gdb.mk ⟨true, none, "stopped"⟩ [] [], Session.fresh) ∧
    pwStepControl (Gdb.mk ⟨true, none, "running"⟩ [] []) Session.fresh "c"
      = ({ success := false, command := none, output := none,
           error := some (cannotMsg "c"
             (Gdb.mk ⟨true, none, "running"⟩ [] []).ctrl.state),
           state := (Gdb.mk ⟨true, none, "running"⟩ [] []).ctrl.state,
           context := none }, Gdb.mk ⟨true, none, "running"⟩ [] [], Session.fresh) :=
  ⟨step_control_spec.1 "c" (Gdb.mk ⟨true, none, "stopped"⟩ [[MIRecord.result "running" []]] [])
      Session.fresh "-exec-continue" (by decide) rfl,
   step_control_spec.2.1 "bogus" (Gdb.mk ⟨true, none, "stopped"⟩ [] []) Session.fresh
      (by decide),
   step_control_spec.2.2 "c" (Gdb.mk ⟨true, none, "running"⟩ [] []) Session.fresh
      (by decide)⟩

/-- C6 counterexample: an attach-marker line whose payload does not parse is
dropped entirely — neither pushed to the raw queue nor delivered as an event —
because the reader hits `except: pass` and then `continue`.  `json.loads` on
the payload `notjson` raises `ValueError`; the reader consults the parser only
at that payload, so the constant-`none` function models it exactly on this
input. -/
theorem attach_marker_parse_failure_drops_line :
    processLine (fun _ => none) PipeState.fresh "out" "PWNCLI_ATTACH_RESULT:notjson\n"
      = PipeState.fresh ∧
    (processLine (fun _ => none) PipeState.fresh "out"
        "PWNCLI_ATTACH_RESULT:notjson\n").rawQueue = [] ∧
    (processLine (fun _ => none) PipeState.fresh "out"
        "PWNCLI_ATTACH_RESULT:notjson\n").events = [] :=
  ⟨rfl, rfl, rfl⟩

/-- C6 amended: graceful degradation to plain output holds for `PWNO_IPC`
marker lines — on a parse failure the line is pushed to the raw queue and
delivered as a stream/data event — whereas a `PWNCLI_ATTACH_RESULT` marker
line whose payload fails to parse is dropped silently, leaving the pipe state
unchanged. -/
theorem marker_parse_failure_degradation :
    (∀ (jloads : String → Option PyJson) (st : PipeState) (stream line : String),
        strLead "PWNCLI_ATTACH_RESULT:" line = false →
        strLead "PWNO_IPC:" line = true →
        jloads (pyStrip (afterFirstColon line)) = none →
        (processLine jloads st stream line).rawQueue = st.rawQueue ++ [line] ∧
        (processLine jloads st stream line).events
          = st.events ++ [.jobj [("type", .jstr stream), ("data", .jstr line)]]) ∧
    (∀ (jloads : String → Option PyJson) (st : PipeState) (stream line : String),
        strLead "PWNCLI_ATTACH_RESULT:" line = true →
        jloads (pyStrip (afterFirstColon line)) = none →
        processLine jloads st stream line = st) := by
  constructor
  · intro jloads st stream line h1 h2 h3
    have e : processLine jloads st stream line = plainOutput st stream line := by
      simp [processLine, h1, h2, h3]
    rw [e]
    exact ⟨rfl, rfl⟩
  · intro jloads st stream line h1 h2
    simp [processLine, h1, h2]

/-- Witness for the amended C6: a garbled IPC marker line falls through to
plain output; a garbled attach marker line is dropped. -/
theorem marker_parse_failure_degradation_witness :
    ((processLine (fun _ => none) PipeState.fresh "err" "PWNO_IPC:oops\n").rawQueue
        = PipeState.fresh.rawQueue ++ ["PWNO_IPC:oops\n"] ∧
     (processLine (fun _ => none) PipeState.fresh "err" "PWNO_IPC:oops\n").events
        = PipeState.fresh.events ++
          [.jobj [("type", .jstr "err"), ("data", .jstr "PWNO_IPC:oops\n")]]) ∧
    processLine (fun _ => none) PipeState.fresh "out" "PWNCLI_ATTACH_RESULT:oops\n"
      = PipeState.fresh :=
  ⟨marker_parse_failure_degradation.1 (fun _ => none) PipeState.fresh "err"
      "PWNO_IPC:oops\n" (by decide) (by decide) rfl,
   marker_parse_failure_degradation.2 (fun _ => none) PipeState.fresh "out"
      "PWNCLI_ATTACH_RESULT:oops\n" (by decide) rfl⟩

/-- Updating the session breakpoint map makes the entry retrievable. -/
theorem bpLookup_bpSet_self (bps : List (Nat × SBreakpoint)) (n : Nat) (bp : SBreakpoint) :
    bpLookup (bpSet bps n bp) n = some bp := by
  induction bps with
  | nil => simp [bpSet, bpLookup]
  | cons kv rest ih =>
    obtain ⟨k, bp0⟩ := kv
    by_cases hk : k = n
    · simp [bpSet, bpLookup, hk]
    · simp [bpSet, bpLookup, hk, ih]

/-- C8 counterexample: with breakpoint 1 locally enabled, a successful
`toggle_breakpoint(1, enable := true)` leaves the session entry disabled —
the session flips the flag instead of adopting the requested/reported value. -/
theorem toggle_enable_flips_local_flag :
    (pwToggleBreakpoint (Gdb.mk ⟨true, none, "stopped"⟩ [[MIRecord.result "done" []]] [])
        (Session.mk none false none "idle" [(1, ⟨1, "0x400000", true, 0, none⟩)])
        1 true).1.success = true ∧
    (bpLookup (pwToggleBreakpoint
        (Gdb.mk ⟨true, none, "stopped"⟩ [[MIRecord.result "done" []]] [])
        (Session.mk none false none "idle" [(1, ⟨1, "0x400000", true, 0, none⟩)])
        1 true).2.2.breakpoints 1).map SBreakpoint.enabled = some false := by
  exact ⟨rfl, rfl⟩

/-- C8 amended: `toggle_breakpoint` issues exactly the requested
`-break-enable`/`-break-disable` MI command; when GDB reports no error the
session entry for that number (when present) has its enabled flag negated
relative to its prior local value — the requested value only selects the MI
command — and on a GDB error the session is unchanged. -/
theorem toggle_breakpoint_flips_session_flag :
    (∀ (g : Gdb) (s : Session) (n : Nat) (enable : Bool),
        (pwToggleBreakpoint g s n enable).2.1.writes
          = g.writes ++ [(if enable then "-break-enable " else "-break-disable ")
              ++ toString n]) ∧
    (∀ (g : Gdb) (s : Session) (n : Nat) (enable : Bool),
        (pwToggleBreakpoint g s n enable).1.success = true →
        bpLookup (pwToggleBreakpoint g s n enable).2.2.breakpoints n
          = (bpLookup s.breakpoints n).map
              (fun bp => { bp with enabled := !bp.enabled })) ∧
    (∀ (g : Gdb) (s : Session) (n : Nat) (enable : Bool),
        (pwToggleBreakpoint g s n enable).1.success = false →
        (pwToggleBreakpoint g s n enable).2.2 = s) := by
  refine ⟨?_, ?_, ?_⟩
  · intro g s n enable
    cases enable
    · exact gdbExecuteMi_writes g ("-break-disable " ++ toString n)
    · exact gdbExecuteMi_writes g ("-break-enable " ++ toString n)
  · intro g s n enable h
    have hterr : truthy (if enable then (ctrlEnableBreakpoint g n).1.error
        else (ctrlDisableBreakpoint g n).1.error) = false := by
      by_cases he : truthy (if enable then (ctrlEnableBreakpoint g n).1.error
          else (ctrlDisableBreakpoint g n).1.error) = false
      · exact he
      · exfalso
        have : (pwToggleBreakpoint g s n enable).1.success
            = !(truthy ((if enable then ctrlEnableBreakpoint g n
                else ctrlDisableBreakpoint g n).1.error)) := by
          cases enable <;> rfl
        rw [this] at h
        cases enable <;> simp_all
    have hs : (pwToggleBreakpoint g s n enable).2.2 = (sessionToggleBp s n).1 := by
      cases enable <;> simp_all [pwToggleBreakpoint]
    rw [hs]
    unfold sessionToggleBp
    cases hb : bpLookup s.breakpoints n with
    | none => simp [hb]
    | some bp => simp [hb, bpLookup_bpSet_self]
  · intro g s n enable h
    have hterr : truthy ((if enable then ctrlEnableBreakpoint g n
        else ctrlDisableBreakpoint g n).1.error) = true := by
      have : (pwToggleBreakpoint g s n enable).1.success
          = !(truthy ((if enable then ctrlEnableBreakpoint g n
              else ctrlDisableBreakpoint g n).1.error)) := by
        cases enable <;> rfl
      rw [this] at h
      simpa using h
    cases enable <;> simp_all [pwToggleBreakpoint]

/-- Witness for the amended C8: a successful enable toggles the single local
entry off; a failing disable leaves the session unchanged. -/
theorem toggle_breakpoint_flips_session_flag_witness :
    (pwToggleBreakpoint (Gdb.mk ⟨true, none, "stopped"⟩ [[MIRecord.result "done" []]] [])
        (Session.mk none false none "idle" [(2, ⟨2, "0x1234", false, 0, none⟩)])
        2 true).2.1.writes
      = (Gdb.mk ⟨true, none, "stopped"⟩ [[MIRecord.result "done" []]] []).writes
        ++ [(if true then "-break-enable " else "-break-disable ") ++ toString 2] ∧
    bpLookup (pwToggleBreakpoint
        (Gdb.mk ⟨true, none, "stopped"⟩ [[MIRecord.result "done" []]] [])
        (Session.mk none false none "idle" [(2, ⟨2, "0x1234", false, 0, none⟩)])
        2 true).2.2.breakpoints 2
      = (bpLookup (Session.mk none false none "idle"
          [(2, ⟨2, "0x1234", false, 0, none⟩)]).breakpoints 2).map
          (fun bp => { bp with enabled := !bp.enabled }) ∧
    (pwToggleBreakpoint (Gdb.mk ⟨true, none, "stopped"⟩
        [[MIRecord.result "error" [("msg", "No breakpoint number 9")]]] [])
        (Session.mk none false none "idle" [(2, ⟨2, "0x1234", false, 0, none⟩)])
        9 false).2.2
      = Session.mk none false none "idle" [(2, ⟨2, "0x1234", false, 0, none⟩)] :=
  ⟨toggle_breakpoint_flips_session_flag.1
      (Gdb.mk ⟨true, none, "stopped"⟩ [[MIRecord.result "done" []]] [])
      (Session.mk none false none "idle" [(2, ⟨2, "0x1234", false, 0, none⟩)]) 2 true,
   toggle_breakpoint_flips_session_flag.2.1
      (Gdb.mk ⟨true, none, "stopped"⟩ [[MIRecord.result "done" []]] [])
      (Session.mk none false none "idle" [(2, ⟨2, "0x1234", false, 0, none⟩)]) 2 true
      (by decide),
   toggle_breakpoint_flips_session_flag.2.2
      (Gdb.mk ⟨true, none, "stopped"⟩
        [[MIRecord.result "error" [("msg", "No breakpoint number 9")]]] [])
      (Session.mk none false none "idle" [(2, ⟨2, "0x1234", false, 0, none⟩)]) 9 false
      (by decide)⟩

/-- After a dict assignment the entry is retrievable. -/
theorem alook_aset_self {α : Type} (m : List (Nat × α)) (n : Nat) (v : α) :
    alook (aset m n v) n = some v := by
  induction m with
  | nil => simp [aset, alook]
  | cons kv rest ih =>
    obtain ⟨k, w⟩ := kv
    by_cases hk : k = n
    · simp [aset, alook, hk]
    · simp [aset, alook, hk, ih]

/-- Unfolding equation of `alook` on a cons cell. -/
theorem alook_cons {α : Type} (k : Nat) (w : α) (rest : List (Nat × α)) (n : Nat) :
    alook ((k, w) :: rest) n = if k = n then some w else alook rest n := rfl

/-- Unfolding equation of `aset` on a cons cell. -/
theorem aset_cons {α : Type} (k : Nat) (w : α) (rest : List (Nat × α)) (n : Nat) (v : α) :
    aset ((k, w) :: rest) n v
      = if k = n then (k, v) :: rest else (k, w) :: aset rest n v := rfl

/-- Unfolding equation of `aerase` on a cons cell. -/
theorem aerase_cons {α : Type} (k : Nat) (w : α) (rest : List (Nat × α)) (n : Nat) :
    aerase ((k, w) :: rest) n = if k = n then rest else (k, w) :: aerase rest n := rfl

/-- Deleting the only entry for a key makes it unretrievable. -/
theorem alook_aerase_aset {α : Type} (m : List (Nat × α)) (n : Nat) (v : α)
    (h : alook m n = none) : alook (aerase (aset m n v) n) n = none := by
  induction m with
  | nil => simp [aset, aerase, alook]
  | cons kv rest ih =>
    obtain ⟨k, w⟩ := kv
    rw [alook_cons] at h
    by_cases hk : k = n
    · rw [if_pos hk] at h
      exact Option.noConfusion h
    · rw [if_neg hk] at h
      rw [aset_cons, if_neg hk, aerase_cons, if_neg hk, alook_cons, if_neg hk]
      exact ih h

/-- Lookup through the per-key modification used by `osKill`. -/
theorem alook_mapIf {α : Type} (f : α → α) (l : List (Nat × α)) (n : Nat) :
    alook (l.map (fun kv => if kv.1 = n then (kv.1, f kv.2) else kv)) n
      = (alook l n).map f := by
  induction l with
  | nil => rfl
  | cons kv rest ih =>
    obtain ⟨k, w⟩ := kv
    rw [show List.map (fun kv => if kv.1 = n then (kv.1, f kv.2) else kv) ((k, w) :: rest)
        = (if k = n then (k, f w) else (k, w))
          :: List.map (fun kv => if kv.1 = n then (kv.1, f kv.2) else kv) rest from rfl]
    by_cases hk : k = n
    · rw [if_pos hk, alook_cons, if_pos hk, alook_cons, if_pos hk]
      rfl
    · rw [if_neg hk, alook_cons, if_neg hk, alook_cons, if_neg hk, ih]

/-- A running process killed with signal `k` polls as dead with code `-k`. -/
theorem osKill_poll (os : OS) (pid : Nat) (k : Int) (p : OsProc)
    (hp : osProc os pid = some p) (hr : p.running = true) :
    osPoll (osKill os pid k) pid = some (-k) := by
  have h1 : osProc (osKill os pid k) pid
      = some (if p.running then { p with running := false, isUp := false, returncode := -k }
              else p) := by
    show alook _ pid = _
    rw [show osKill os pid k = OS.mk (os.procs.map (fun kv =>
        if kv.1 = pid then
          (kv.1, if kv.2.running then
              { kv.2 with running := false, isUp := false, returncode := -k }
            else kv.2)
        else kv)) os.files from rfl]
    show alook (os.procs.map _) pid = _
    rw [alook_mapIf (fun q => if q.running then
        { q with running := false, isUp := false, returncode := -k } else q) os.procs pid]
    rw [show alook os.procs pid = osProc os pid from rfl, hp]
    rfl
  unfold osPoll
  rw [h1, hr]
  simp

/-- Kill preserves the log files. -/
theorem osKill_files (os : OS) (pid : Nat) (k : Int) :
    (osKill os pid k).files = os.files := rfl

/-- Every pid listed by `list_processes` is a key of the tracking map. -/
theorem listGo_pids (m : List (Nat × TrackedEntry)) (os : OS) :
    ∀ lp ∈ (listGo m os).1, ∃ e, (lp.pid, e) ∈ m := by
  induction m with
  | nil => intro lp h; exact absurd h (by simp [listGo])
  | cons kv rest ih =>
    obtain ⟨k, e0⟩ := kv
    intro lp h
    rw [show listGo ((k, e0) :: rest) os
        = (match osPoll os k with
           | none =>
             (match osProc os k with
              | some p => (⟨k, "running", some p.name, some p.cmdline⟩ :: (listGo rest os).1,
                  (k, e0) :: (listGo rest os).2)
              | none => (⟨k, "running", none, none⟩ :: (listGo rest os).1,
                  (k, e0) :: (listGo rest os).2))
           | some _ => ((listGo rest os).1, (listGo rest os).2)) from rfl] at h
    rcases hpoll : osPoll os k with _ | rc
    · rcases hproc : osProc os k with _ | p
      · rw [hpoll, hproc] at h
        rcases List.mem_cons.mp h with h1 | h1
        · exact ⟨e0, by rw [h1]; exact List.mem_cons_self _ _⟩
        · obtain ⟨e, he⟩ := ih lp h1
          exact ⟨e, List.mem_cons_of_mem _ he⟩
      · rw [hpoll, hproc] at h
        rcases List.mem_cons.mp h with h1 | h1
        · exact ⟨e0, by rw [h1]; exact List.mem_cons_self _ _⟩
        · obtain ⟨e, he⟩ := ih lp h1
          exact ⟨e, List.mem_cons_of_mem _ he⟩
    · rw [hpoll] at h
      obtain ⟨e, he⟩ := ih lp h
      exact ⟨e, List.mem_cons_of_mem _ he⟩

/-- A key that belongs to the map has a non-`none` lookup. -/
theorem alook_ne_none_of_mem {α : Type} (m : List (Nat × α)) (n : Nat) (e : α)
    (h : (n, e) ∈ m) : alook m n ≠ none := by
  induction m with
  | nil => exact absurd h (by simp)
  | cons kv rest ih =>
    obtain ⟨k, w⟩ := kv
    rcases List.mem_cons.mp h with h1 | h1
    · obtain ⟨hk, hw⟩ := Prod.mk.inj h1.symm
      rw [alook_cons, if_pos hk]
      exact Option.noConfusion
    · by_cases hk : k = n
      · rw [alook_cons, if_pos hk]
        exact Option.noConfusion
      · rw [alook_cons, if_neg hk]
        exact ih h1

/-- C9: for a pid not tracked by the manager, `get_process` answers from the
OS — success with the OS-reported status, name and command line when such a
process exists, and `Process not found` exactly when it does not. -/
theorem get_process_untracked (mgr : Mgr) (os : OS) (pid : Nat)
    (h : alook mgr pid = none) :
    (∀ p : OsProc, osProc os pid = some p →
        (getProcess mgr os pid).1.success = true ∧
        (getProcess mgr os pid).1.status
          = some (if p.isUp then "running" else "unknown") ∧
        (getProcess mgr os pid).1.name = some p.name ∧
        (getProcess mgr os pid).1.cmdline = some p.cmdline ∧
        (getProcess mgr os pid).1.error = none) ∧
    ((getProcess mgr os pid).1.error = some "Process not found"
        ↔ osProc os pid = none) ∧
    (osProc os pid = none → (getProcess mgr os pid).1.success = false) := by
  refine ⟨?_, ?_, ?_⟩
  · intro p hp
    refine ⟨?_, ?_, ?_, ?_, ?_⟩ <;> simp [getProcess, h, hp]
  · cases hp : osProc os pid with
    | none => simp [getProcess, h, hp]
    | some p => simp [getProcess, h, hp]
  · intro hp
    simp [getProcess, h, hp]

/-- Witness for C9: an untracked live pid is reported from the OS; a dead pid
yields `Process not found`. -/
theorem get_process_untracked_witness :
    ((getProcess [] (OS.mk [(5, ⟨true, 0, "nginx", "nginx -g daemon", true, 2, 64⟩)] [])
        5).1.success = true ∧
     (getProcess [] (OS.mk [(5, ⟨true, 0, "nginx", "nginx -g daemon", true, 2, 64⟩)] [])
        5).1.status = some (if true then "running" else "unknown") ∧
     (getProcess [] (OS.mk [(5, ⟨true, 0, "nginx", "nginx -g daemon", true, 2, 64⟩)] [])
        5).1.name = some "nginx" ∧
     (getProcess [] (OS.mk [(5, ⟨true, 0, "nginx", "nginx -g daemon", true, 2, 64⟩)] [])
        5).1.cmdline = some "nginx -g daemon" ∧
     (getProcess [] (OS.mk [(5, ⟨true, 0, "nginx", "nginx -g daemon", true, 2, 64⟩)] [])
        5).1.error = none) ∧
    (getProcess [] (OS.mk [] []) 5).1.success = false :=
  ⟨(get_process_untracked [] (OS.mk [(5, ⟨true, 0, "nginx", "nginx -g daemon", true, 2, 64⟩)] [])
      5 rfl).1 ⟨true, 0, "nginx", "nginx -g daemon", true, 2, 64⟩ rfl,
   (get_process_untracked [] (OS.mk [] []) 5 rfl).2.2 rfl⟩

/-- C10: when the child is already dead at the post-grace poll,
`spawn_process` returns the terminal outcome (failure, exit code, both file
contents) in the same call, yet the pid stays in the tracking map with its
entry intact, and a subsequent `get_process` returns the terminated outcome
again and only then removes the entry. -/
theorem spawn_immediate_exit_lifecycle (mgr0 : Mgr) (os : OS) (cmd cwd : String)
    (pid : Nat) (sop sep : String) (p : OsProc)
    (hm : alook mgr0 pid = none)
    (hp : osProc os pid = some p) (hr : p.running = false) :
    (spawnProcess mgr0 os cmd cwd pid sop sep).1.success = false ∧
    (spawnProcess mgr0 os cmd cwd pid sop sep).1.error
      = some "Process terminated immediately" ∧
    (spawnProcess mgr0 os cmd cwd pid sop sep).1.returncode = some p.returncode ∧
    (spawnProcess mgr0 os cmd cwd pid sop sep).1.stdout = some (fileReadD os sop) ∧
    (spawnProcess mgr0 os cmd cwd pid sop sep).1.stderr = some (fileReadD os sep) ∧
    alook (spawnProcess mgr0 os cmd cwd pid sop sep).2 pid
      = some ⟨sop, sep, cmd, cwd, true⟩ ∧
    (getProcess (spawnProcess mgr0 os cmd cwd pid sop sep).2 os pid).1.status
      = some "terminated" ∧
    (getProcess (spawnProcess mgr0 os cmd cwd pid sop sep).2 os pid).1.returncode
      = some p.returncode ∧
    (getProcess (spawnProcess mgr0 os cmd cwd pid sop sep).2 os pid).1.stdout
      = some (fileReadD os sop) ∧
    (getProcess (spawnProcess mgr0 os cmd cwd pid sop sep).2 os pid).1.stderr
      = some (fileReadD os sep) ∧
    alook (getProcess (spawnProcess mgr0 os cmd cwd pid sop sep).2 os pid).2 pid
      = none := by
  have hpoll : osPoll os pid = some p.returncode := by
    simp [osPoll, hp, hr]
  have hmgr1 : (spawnProcess mgr0 os cmd cwd pid sop sep).2
      = aset mgr0 pid ⟨sop, sep, cmd, cwd, true⟩ := by
    simp [spawnProcess, hpoll]
  have hset : alook (aset mgr0 pid (⟨sop, sep, cmd, cwd, true⟩ : TrackedEntry)) pid
      = some ⟨sop, sep, cmd, cwd, true⟩ := alook_aset_self mgr0 pid _
  have hget2 : (getProcess (spawnProcess mgr0 os cmd cwd pid sop sep).2 os pid).2
      = aerase (aset mgr0 pid ⟨sop, sep, cmd, cwd, true⟩) pid := by
    rw [hmgr1]
    simp [getProcess, hset, hpoll]
  refine ⟨?_, ?_, ?_, ?_, ?_, ?_, ?_, ?_, ?_, ?_, ?_⟩
  · simp [spawnProcess, hpoll]
  · simp [spawnProcess, hpoll]
  · simp [spawnProcess, hpoll]
  · simp [spawnProcess, hpoll]
  · simp [spawnProcess, hpoll]
  · rw [hmgr1]; exact hset
  · rw [hmgr1]; simp [getProcess, hset, hpoll]
  · rw [hmgr1]; simp [getProcess, hset, hpoll]
  · rw [hmgr1]; simp [getProcess, hset, hpoll]
  · rw [hmgr1]; simp [getProcess, hset, hpoll]
  · rw [hget2]
    exact alook_aerase_aset mgr0 pid _ hm

/-- Witness for C10 at a concrete dead child: pid 4 exits with code 2 during
the grace period, having written `boom` to stderr. -/
theorem spawn_immediate_exit_lifecycle_witness :
    (spawnProcess [] (OS.mk [(4, ⟨false, 2, "sh", "sh -c exit", false, 0, 0⟩)]
        [("/tmp/e.log", "boom")]) "sh -c exit" "/workspace" 4 "/tmp/o.log"
        "/tmp/e.log").1.success = false ∧
    (spawnProcess [] (OS.mk [(4, ⟨false, 2, "sh", "sh -c exit", false, 0, 0⟩)]
        [("/tmp/e.log", "boom")]) "sh -c exit" "/workspace" 4 "/tmp/o.log"
        "/tmp/e.log").1.returncode = some (2 : Int) ∧
    (getProcess (spawnProcess [] (OS.mk [(4, ⟨false, 2, "sh", "sh -c exit", false, 0, 0⟩)]
        [("/tmp/e.log", "boom")]) "sh -c exit" "/workspace" 4 "/tmp/o.log"
        "/tmp/e.log").2 (OS.mk [(4, ⟨false, 2, "sh", "sh -c exit", false, 0, 0⟩)]
        [("/tmp/e.log", "boom")]) 4).1.stderr = some "boom" := by
  have h := spawn_immediate_exit_lifecycle [] (OS.mk
      [(4, ⟨false, 2, "sh", "sh -c exit", false, 0, 0⟩)] [("/tmp/e.log", "boom")])
      "sh -c exit" "/workspace" 4 "/tmp/o.log" "/tmp/e.log"
      ⟨false, 2, "sh", "sh -c exit", false, 0, 0⟩ rfl rfl rfl
  exact ⟨h.1, h.2.2.1, h.2.2.2.2.2.2.2.2.2.1⟩

/-- C7: for a tracked process, `spawn(P)` then `kill(P)` then `get(P)` — the
kill succeeds and leaves the tracking entry in place, the subsequent get
returns success with the exit code and the final contents of both output
files and removes the entry, and a later `list()` does not include P. -/
theorem spawn_kill_get_lifecycle (mgr0 : Mgr) (osA osB : OS) (cmd cwd : String)
    (pid : Nat) (sop sep : String) (sig : Int) (pA pB : OsProc)
    (hm : alook mgr0 pid = none)
    (hpA : osProc osA pid = some pA) (hrA : pA.running = true)
    (hpB : osProc osB pid = some pB) (hrB : pB.running = true) :
    (spawnKillGet mgr0 osA osB cmd cwd pid sop sep sig).1.success = true ∧
    (spawnKillGet mgr0 osA osB cmd cwd pid sop sep sig).2.1.success = true ∧
    alook (spawnProcess mgr0 osA cmd cwd pid sop sep).2 pid
      = some ⟨sop, sep, cmd, cwd, true⟩ ∧
    (spawnKillGet mgr0 osA osB cmd cwd pid sop sep sig).2.2.1.success = true ∧
    (spawnKillGet mgr0 osA osB cmd cwd pid sop sep sig).2.2.1.status
      = some "terminated" ∧
    (spawnKillGet mgr0 osA osB cmd cwd pid sop sep sig).2.2.1.returncode
      = some (-(if sig = 15 then (15 : Int) else 9)) ∧
    (spawnKillGet mgr0 osA osB cmd cwd pid sop sep sig).2.2.1.stdout
      = some (fileReadD osB sop) ∧
    (spawnKillGet mgr0 osA osB cmd cwd pid sop sep sig).2.2.1.stderr
      = some (fileReadD osB sep) ∧
    alook (spawnKillGet mgr0 osA osB cmd cwd pid sop sep sig).2.2.2.1 pid = none ∧
    (∀ lp ∈ (listProcesses (spawnKillGet mgr0 osA osB cmd cwd pid sop sep sig).2.2.2.1
        (spawnKillGet mgr0 osA osB cmd cwd pid sop sep sig).2.2.2.2).1,
      lp.pid ≠ pid) := by
  have hpollA : osPoll osA pid = none := by
    simp [osPoll, hpA, hrA]
  have hmgr1 : (spawnProcess mgr0 osA cmd cwd pid sop sep).2
      = aset mgr0 pid ⟨sop, sep, cmd, cwd, true⟩ := by
    simp [spawnProcess, hpollA]
  have hset : alook (aset mgr0 pid (⟨sop, sep, cmd, cwd, true⟩ : TrackedEntry)) pid
      = some ⟨sop, sep, cmd, cwd, true⟩ := alook_aset_self mgr0 pid _
  have htracked : (alook (aset mgr0 pid
      (⟨sop, sep, cmd, cwd, true⟩ : TrackedEntry)) pid).isSome = true := by
    rw [hset]; rfl
  have hkill : killProcess (aset mgr0 pid ⟨sop, sep, cmd, cwd, true⟩) osB pid sig
      = (⟨true, pid, some sig, some "killed", none⟩,
         osKill osB pid (if sig = 15 then 15 else 9)) := by
    unfold killProcess
    rw [if_pos htracked]
  have hpoll1 : osPoll (osKill osB pid (if sig = 15 then 15 else 9)) pid
      = some (-(if sig = 15 then (15 : Int) else 9)) :=
    osKill_poll osB pid _ pB hpB hrB
  have hget : getProcess (aset mgr0 pid ⟨sop, sep, cmd, cwd, true⟩)
      (osKill osB pid (if sig = 15 then 15 else 9)) pid
      = ({ success := true, pid := pid, status := some "terminated",
           returncode := some (-(if sig = 15 then (15 : Int) else 9)),
           stdout := some (fileReadD osB sop), stderr := some (fileReadD osB sep),
           stdoutPath := some sop, stderrPath := some sep, name := none,
           cmdline := none, cpu := none, memRss := none, error := none },
         aerase (aset mgr0 pid ⟨sop, sep, cmd, cwd, true⟩) pid) := by
    simp [getProcess, hset, hpoll1, fileReadD, osKill_files]
  have hget1 : (spawnKillGet mgr0 osA osB cmd cwd pid sop sep sig).2.2.1
      = { success := true, pid := pid, status := some "terminated",
          returncode := some (-(if sig = 15 then (15 : Int) else 9)),
          stdout := some (fileReadD osB sop), stderr := some (fileReadD osB sep),
          stdoutPath := some sop, stderrPath := some sep, name := none,
          cmdline := none, cpu := none, memRss := none, error := none } := by
    show (getProcess (spawnProcess mgr0 osA cmd cwd pid sop sep).2
        (killProcess (spawnProcess mgr0 osA cmd cwd pid sop sep).2 osB pid sig).2 pid).1
      = _
    rw [hmgr1, hkill]
    dsimp only
    rw [hget]
  have hget2 : (spawnKillGet mgr0 osA osB cmd cwd pid sop sep sig).2.2.2.1
      = aerase (aset mgr0 pid ⟨sop, sep, cmd, cwd, true⟩) pid := by
    show (getProcess (spawnProcess mgr0 osA cmd cwd pid sop sep).2
        (killProcess (spawnProcess mgr0 osA cmd cwd pid sop sep).2 osB pid sig).2 pid).2
      = _
    rw [hmgr1, hkill]
    dsimp only
    rw [hget]
  refine ⟨?_, ?_, ?_, ?_, ?_, ?_, ?_, ?_, ?_, ?_⟩
  · show (spawnProcess mgr0 osA cmd cwd pid sop sep).1.success = true
    simp [spawnProcess, hpollA]
  · show (killProcess (spawnProcess mgr0 osA cmd cwd pid sop sep).2 osB pid sig).1.success
      = true
    rw [hmgr1, hkill]
  · rw [hmgr1]
    exact hset
  · rw [hget1]
  · rw [hget1]
  · rw [hget1]
  · rw [hget1]
  · rw [hget1]
  · rw [hget2]
    exact alook_aerase_aset mgr0 pid _ hm
  · intro lp hlp hpe
    rw [hget2] at hlp
    obtain ⟨e, he⟩ := listGo_pids _ _ lp hlp
    exact alook_ne_none_of_mem _ pid e (hpe ▸ he)
      (alook_aerase_aset mgr0 pid _ hm)

/-- Witness for C7: spawn `sleep 30` (pid 9, running), SIGTERM it, then get
and list. -/
theorem spawn_kill_get_lifecycle_witness :
    (spawnKillGet [] (OS.mk [(9, ⟨true, 0, "sleep", "sleep 30", true, 0, 1⟩)] [])
        (OS.mk [(9, ⟨true, 0, "sleep", "sleep 30", true, 0, 1⟩)] [])
        "sleep 30" "/workspace" 9 "/tmp/o.log" "/tmp/e.log" 15).2.1.success = true ∧
    (spawnKillGet [] (OS.mk [(9, ⟨true, 0, "sleep", "sleep 30", true, 0, 1⟩)] [])
        (OS.mk [(9, ⟨true, 0, "sleep", "sleep 30", true, 0, 1⟩)] [])
        "sleep 30" "/workspace" 9 "/tmp/o.log" "/tmp/e.log" 15).2.2.1.status
      = some "terminated" ∧
    (spawnKillGet [] (OS.mk [(9, ⟨true, 0, "sleep", "sleep 30", true, 0, 1⟩)] [])
        (OS.mk [(9, ⟨true, 0, "sleep", "sleep 30", true, 0, 1⟩)] [])
        "sleep 30" "/workspace" 9 "/tmp/o.log" "/tmp/e.log" 15).2.2.1.returncode
      = some (-(if (15 : Int) = 15 then (15 : Int) else 9)) ∧
    alook (spawnKillGet [] (OS.mk [(9, ⟨true, 0, "sleep", "sleep 30", true, 0, 1⟩)] [])
        (OS.mk [(9, ⟨true, 0, "sleep", "sleep 30", true, 0, 1⟩)] [])
        "sleep 30" "/workspace" 9 "/tmp/o.log" "/tmp/e.log" 15).2.2.2.1 9 = none := by
  have h := spawn_kill_get_lifecycle []
      (OS.mk [(9, ⟨true, 0, "sleep", "sleep 30", true, 0, 1⟩)] [])
      (OS.mk [(9, ⟨true, 0, "sleep", "sleep 30", true, 0, 1⟩)] [])
      "sleep 30" "/workspace" 9 "/tmp/o.log" "/tmp/e.log" 15
      ⟨true, 0, "sleep", "sleep 30", true, 0, 1⟩
      ⟨true, 0, "sleep", "sleep 30", true, 0, 1⟩ rfl rfl rfl rfl rfl
  exact ⟨h.2.1, h.2.2.2.2.1, h.2.2.2.2.2.1, h.2.2.2.2.2.2.2.2.1⟩

end PwnoMcp
